import Mathlib

/-!
Verification of the `StatefulBrowser` state machine from
`lib/mechanicalsoup/stateful_browser.py`.

The module is a thin bookkeeping layer over two external collaborators
(an HTTP transport and an HTML parser / CSS-selector engine).  We embed
the HTML document as a tree of nodes, the transport as an oracle
(a structure of response-producing functions), and the selector and
regular-expression engines as boolean-valued match functions supplied as
parameters.  Each browser operation is translated statement by statement
from the Python source; Python exceptions become an `Except` error value
paired with the (unchanged) state, mirroring that every raise in this
layer happens before the state field assignment.

Python-semantics notes used by the embedding:
* bs4 `Tag` (of the era this snapshot ships with, pre-4.13) defines
  `__len__` (number of children) and no `__bool__`, so an element with
  no children is falsy; `NavigableString` is a `str`, falsy when empty.
  This is `tagTruthy` below, used by `if form and form.has_attr('id')`
  in `select_form` and by `if link` in `_find_link_internal`.
* `requests.structures.CaseInsensitiveDict` membership is
  case-insensitive on the key, used by `_merge_referer`.
* `bs4.Tag.extend` appends each given element to the tag's list of
  children (when the element already lives elsewhere in the tree bs4
  also detaches it from its old parent; no claim below depends on the
  old location, so the embedding models the append only and the doc
  comment of `select_form_css` records this).
-/

namespace MechanicalSoup

/-- HTML node: an element (`tag`) with a name, attributes and children,
or a string node (`text`, bs4 `NavigableString`). -/
inductive Node where
  | tag (name : String) (attrs : List (String × String)) (children : List Node)
  | text (s : String)
deriving Repr, Inhabited

mutual

/-- Boolean structural equality on nodes (the nested `List Node` makes
the automatic derivation unavailable). -/
def Node.beq : Node → Node → Bool
  | .tag n1 a1 c1, .tag n2 a2 c2 => n1 == n2 && a1 == a2 && Node.beqL c1 c2
  | .text s1, .text s2 => s1 == s2
  | .tag _ _ _, .text _ => false
  | .text _, .tag _ _ _ => false

/-- Helper of `Node.beq` on lists of children. -/
def Node.beqL : List Node → List Node → Bool
  | [], [] => true
  | _ :: _, [] => false
  | [], _ :: _ => false
  | c :: cs, d :: ds => Node.beq c d && Node.beqL cs ds

end

mutual

/-- Soundness and completeness of `Node.beq`. -/
theorem Node.beq_iff_eq : ∀ a b : Node, Node.beq a b = true ↔ a = b
  | .tag n1 a1 c1, .tag n2 a2 c2 => by
    have h := Node.beqL_iff_eq c1 c2
    simp [Node.beq, h, and_assoc]
  | .text s1, .text s2 => by simp [Node.beq]
  | .tag _ _ _, .text _ => by simp [Node.beq]
  | .text _, .tag _ _ _ => by simp [Node.beq]

/-- Soundness and completeness of `Node.beqL`. -/
theorem Node.beqL_iff_eq : ∀ as bs : List Node, Node.beqL as bs = true ↔ as = bs
  | [], [] => by simp [Node.beqL]
  | _ :: _, [] => by simp [Node.beqL]
  | [], _ :: _ => by simp [Node.beqL]
  | c :: cs, d :: ds => by
    have h1 := Node.beq_iff_eq c d
    have h2 := Node.beqL_iff_eq cs ds
    simp [Node.beqL, h1, h2]

end

instance : DecidableEq Node := fun a b =>
  decidable_of_iff (Node.beq a b = true) (Node.beq_iff_eq a b)

/-- Element name of a node (`Tag.name`); `none` for a string node. -/
def Node.name? : Node → Option String
  | .tag n _ _ => some n
  | .text _ => none

/-- Attribute list of a node; a string node has none. -/
def Node.attrList : Node → List (String × String)
  | .tag _ a _ => a
  | .text _ => []

/-- Children of a node (`Tag.contents`); a string node has none. -/
def Node.children : Node → List Node
  | .tag _ _ cs => cs
  | .text _ => []

/-- Attribute lookup, `tag[key]` / `tag.get(key)`: first binding wins. -/
def getAttr (n : Node) (k : String) : Option String :=
  (n.attrList.find? (fun kv => kv.1 == k)).map (fun kv => kv.2)

/-- Mirrors bs4 `Tag.has_attr`. -/
def hasAttr (n : Node) (k : String) : Bool :=
  (getAttr n k).isSome

/-- Python truthiness of a bs4 node (pre-4.13 bs4: `Tag.__bool__` is
absent so `bool(tag)` falls back to `Tag.__len__`, the number of
children; `NavigableString` is a `str`). -/
def tagTruthy : Node → Bool
  | .tag _ _ cs => !cs.isEmpty
  | .text s => s ≠ ""

/-- Paths address a node inside a tree by successive child indices. -/
abbrev Path := List Nat

mutual

/-- All descendants of a node paired with their paths, in document
order (preorder), mirroring bs4's `Tag.descendants` traversal order
used by `find_all` and `select`. The node itself is not included. -/
def pnodes : Node → List (Path × Node)
  | .text _ => []
  | .tag _ _ cs => pnodesL 0 cs

/-- Helper of `pnodes`: traverse a list of siblings starting at child
index `i`. -/
def pnodesL (i : Nat) : List Node → List (Path × Node)
  | [] => []
  | c :: cs => ([i], c) :: ((pnodes c).map (fun q => (i :: q.1, q.2)) ++ pnodesL (i + 1) cs)

end

/-- All descendants of a node in document order. -/
def Node.descendants (n : Node) : List Node :=
  (pnodes n).map (fun q => q.2)

mutual

/-- Concatenated text of a node (bs4 `Tag.text`): all string descendants
joined in document order. -/
def textContent : Node → String
  | .text s => s
  | .tag _ _ cs => textContentL cs

/-- Helper of `textContent` over a list of siblings. -/
def textContentL : List Node → String
  | [] => ""
  | c :: cs => textContent c ++ textContentL cs

end

/-- Node found at a path, if the path is valid. -/
def getNode : Node → Path → Option Node
  | n, [] => some n
  | n, i :: p =>
    match (Node.children n)[i]? with
    | some c => getNode c p
    | none => none

mutual

/-- Replace the node at a path by another node (models an in-place
mutation of a bs4 tree node; an invalid path leaves the tree unchanged). -/
def setNode (n : Node) (p : Path) (m : Node) : Node :=
  match p with
  | [] => m
  | i :: p' =>
    match n with
    | .text s => .text s
    | .tag nm a cs => .tag nm a (setNodeL cs i p' m)

/-- Helper of `setNode`: replace inside child `i` of a sibling list. -/
def setNodeL (cs : List Node) (i : Nat) (p : Path) (m : Node) : List Node :=
  match cs, i with
  | [], _ => []
  | c :: cs, 0 => setNode c p m :: cs
  | c :: cs, i + 1 => c :: setNodeL cs i p m

end

/-- Append new children at the end of a tag's contents
(bs4 `Tag.extend`). -/
def appendChildren : Node → List Node → Node
  | .tag nm a cs, new => .tag nm a (cs ++ new)
  | .text s, _ => .text s

/-- Opaque handle for a prepared HTTP request (`requests` request
object); produced by the transport, stored for `refresh`. -/
structure Request where
  rid : Nat
deriving Repr, DecidableEq, Inhabited

/-- HTTP headers as name/value pairs. -/
abbrev Headers := List (String × String)

/-- Response of the HTTP transport: `soup` is the parsed body, `url`
the final URL after the transport followed redirects, `request` the
sent request attached to the response, `status` the status code. -/
structure Response where
  soup : Node
  url : String
  request : Request
  status : Nat
deriving Repr, DecidableEq, Inhabited

/-- Form handle (`mechanicalsoup.Form`) wrapping the selected tag.
The `Form` class itself is outside this file's source; only the tag it
wraps matters to the claims. -/
structure Form where
  tag : Node
deriving Repr, DecidableEq, Inhabited

/-- Browser state `_BrowserState`: current parsed page, its URL, the
selected form and the original request, each possibly absent. -/
structure BrowserState where
  page : Option Node
  url : Option String
  form : Option Form
  request : Option Request
deriving Repr, DecidableEq, Inhabited

/-- State of a fresh, never-navigated client: `_BrowserState()` with
every field `None`. -/
def initialState : BrowserState :=
  { page := none, url := none, form := none, request := none }

/-- Errors raised by this layer. `linkNotFound` is
`LinkNotFoundError`; `valueUnrefreshable` and `valueConflict` are the
two `ValueError`s (refresh without request, conflicting link
arguments); `attrNoForm` is the `AttributeError` of the `form`
property; `attrNoPage` is the `AttributeError` from using the page when
it is `None`; `typeError` models `re.search` applied to a non-string
pattern. -/
inductive BrowserError where
  | linkNotFound
  | valueUnrefreshable
  | valueConflict
  | attrNoForm
  | attrNoPage
  | typeError
deriving Repr, DecidableEq, Inhabited

/-- HTTP transport oracle: `get url headers` performs a GET
(`Browser.get` / `session.get`), `send` re-issues a prepared request
(`session.send` plus `Browser.add_soup`), `submit` performs a form
submission (`Browser.submit`, given the form, the chosen submit
element, the page URL and the merged keyword headers). The browser
layer treats all three as black boxes. -/
structure Http where
  get : String → Headers → Response
  send : Request → Response
  submit : Form → Option Node → Option String → Headers → Response

instance {ε α : Type} [DecidableEq ε] [DecidableEq α] : DecidableEq (Except ε α) :=
  fun a b =>
    match a, b with
    | .error e1, .error e2 =>
      if h : e1 = e2 then .isTrue (by rw [h]) else .isFalse (fun hh => h (Except.error.inj hh))
    | .ok x, .ok y =>
      if h : x = y then .isTrue (by rw [h]) else .isFalse (fun hh => h (Except.ok.inj hh))
    | .error _, .ok _ => .isFalse (fun hh => Except.noConfusion hh)
    | .ok _, .error _ => .isFalse (fun hh => Except.noConfusion hh)

/-- State after a navigation: `_BrowserState(page=resp.soup,
url=resp.url, request=resp.request)`; the form field is reset to none
by the wholesale replacement. -/
def stateOfResponse (resp : Response) : BrowserState :=
  { page := some resp.soup, url := some resp.url, form := none,
    request := some resp.request }

/-- Translation of `StatefulBrowser.open` (named `openUrl` because
`open` is a Lean keyword): perform the GET and replace the whole
state from the response. The verbosity output is a pure side effect
and is not modelled. -/
def openUrl (http : Http) (st : BrowserState) (url : String)
    (headers : Headers) : Response × BrowserState :=
  let resp := http.get url headers
  (resp, stateOfResponse resp)

/-- Iterated `openUrl` over a list of URLs, for claims about sequences
of open calls; returns the final state. -/
def openSeq (http : Http) (st : BrowserState) : List String → BrowserState
  | [] => st
  | u :: us => openSeq http (openUrl http st u []).2 us

/-- Translation of `StatefulBrowser.open_fake_page`: parse the text
with the given parser (the bs4 constructor is the collaborator `parse`)
and replace the state; no request is stored. -/
def open_fake_page (parse : String → Node) (page_text : String)
    (url : Option String) : BrowserState :=
  { page := some (parse page_text), url := url, form := none, request := none }

/-- Translation of `StatefulBrowser.refresh`: raise `ValueError` when
the state holds no request, otherwise re-send the stored request and
replace the whole state from the response. -/
def refresh (http : Http) (st : BrowserState) :
    Except BrowserError Response × BrowserState :=
  match st.request with
  | none => (.error .valueUnrefreshable, st)
  | some req =>
    let resp := http.send req
    (.ok resp, stateOfResponse resp)

/-- CSS type-selector instance used for concrete examples: a selector
string matches exactly the elements with that tag name. The real
engine (soupsieve) is a collaborator; operations take the match
function as a parameter `selMatch`. -/
def tagNameSel (s : String) (n : Node) : Bool :=
  n.name? == some s

/-- Prefix test on character lists. -/
def listPrefix : List Char → List Char → Bool
  | [], _ => true
  | _ :: _, [] => false
  | a :: as, b :: bs => a == b && listPrefix as bs

/-- Unanchored substring test on character lists, the `re.search`
behavior on a literal pattern with no metacharacters. -/
def listSearch (pat : List Char) : List Char → Bool
  | [] => listPrefix pat []
  | c :: rest => listPrefix pat (c :: rest) || listSearch pat rest

/-- Regular-expression engine instance for concrete examples: literal
patterns with an optional leading caret anchor, with the `re.search`
semantics (match anywhere unless anchored). -/
def literalSearch (pat s : String) : Bool :=
  match pat.toList with
  | '^' :: rest => listPrefix rest s.toList
  | _ => listSearch pat.toList s.toList

/-- Matches of a CSS selector over a page, with their paths, in
document order: `page.select(selector)` before any limit. -/
def selectMatches (selMatch : String → Node → Bool) (page : Node)
    (s : String) : List (Path × Node) :=
  (pnodes page).filter (fun q => selMatch s q.2)

/-- Matches truncated to the first `limit` of them, in document order:
`page.select(selector, limit)`. -/
def selectLimit (selMatch : String → Node → Bool) (page : Node)
    (s : String) (limit : Nat) : List (Path × Node) :=
  (selectMatches selMatch page s).take limit

/-- Translation of `page.find_all(name, form=fid)`: elements with the
given tag name whose `form` attribute equals `fid`, in document order. -/
def findAllNameFormAttr (page : Node) (nm fid : String) : List Node :=
  (Node.descendants page).filter
    (fun n => n.name? == some nm && getAttr n "form" == some fid)

/-- Translation of `page.find_all('a', href=True)`: anchor elements
carrying an href attribute, in document order. -/
def findAllHref (page : Node) : List Node :=
  (Node.descendants page).filter
    (fun n => n.name? == some "a" && hasAttr n "href")

/-- The tuple `elements_with_owner_form` of `select_form`. -/
def elements_with_owner_form : List String :=
  ["input", "button", "fieldset", "object", "output", "select", "textarea"]

/-- Translation of the nested `find_associated_elements` of
`select_form`: for each element kind in `elements_with_owner_form`, in
that order, all elements of the page of that kind whose `form`
attribute equals `form_id`. -/
def find_associated_elements (page : Node) (form_id : String) : List Node :=
  elements_with_owner_form.flatMap (fun el => findAllNameFormAttr page el form_id)

/-- Translation of `StatefulBrowser.select_form` for a selector string
(the `else` branch of the `isinstance` test): query the page with
`limit=nr+1`, fail with `LinkNotFoundError` when fewer than `nr+1`
matches exist, take the last of the returned matches (`found_forms[-1]`),
then, when the form is truthy and has an `id` attribute, extend it with
the associated elements; `form.extend` mutates the page tree in place,
which the embedding renders by rebuilding the page with the extended
form node at the same path (`setNode`). bs4's append also detaches a
moved element from its previous parent; no claim depends on the old
location, so the embedding keeps it. Finally store the form handle in
the state (`self.__state.form = Form(form)`). The debug-mode printing
on failure is a side effect and is not modelled. -/
def select_form_css (selMatch : String → Node → Bool) (st : BrowserState)
    (selector : String) (nr : Nat) : Except BrowserError Form × BrowserState :=
  match st.page with
  | none => (.error .attrNoPage, st)
  | some page =>
    let found := selectLimit selMatch page selector (nr + 1)
    if found.length ≠ nr + 1 then (.error .linkNotFound, st)
    else
      let fq := (found.getLast?).getD ([], default)
      let form := fq.2
      if tagTruthy form && hasAttr form "id" then
        let fid := (getAttr form "id").getD ""
        let form2 := appendChildren form (find_associated_elements page fid)
        let page2 := setNode page fq.1 form2
        (.ok ⟨form2⟩, { st with page := some page2, form := some ⟨form2⟩ })
      else
        (.ok ⟨form⟩, { st with form := some ⟨form⟩ })

/-- Translation of `StatefulBrowser.select_form` for a direct
`bs4.element.Tag` handle: fail with `LinkNotFoundError` when the
handle is not a form element, otherwise apply the same owner
association as the selector branch. The handle is treated as a value;
the source may alias a node of the page, and the claims about page
mutation use the selector branch. -/
def select_form_elem (st : BrowserState) (t : Node) :
    Except BrowserError Form × BrowserState :=
  if t.name? ≠ some "form" then (.error .linkNotFound, st)
  else if tagTruthy t && hasAttr t "id" then
    match st.page with
    | none => (.error .attrNoPage, st)
    | some page =>
      let fid := (getAttr t "id").getD ""
      let form2 := appendChildren t (find_associated_elements page fid)
      (.ok ⟨form2⟩, { st with form := some ⟨form2⟩ })
  else (.ok ⟨t⟩, { st with form := some ⟨t⟩ })

/-- ASCII lower-casing of a character (sufficient for header names). -/
def lowerChar (c : Char) : Char :=
  if 65 ≤ c.toNat && c.toNat ≤ 90 then Char.ofNat (c.toNat + 32) else c

/-- Case-insensitive string equality via ASCII folding, the key
comparison of `requests.structures.CaseInsensitiveDict`. -/
def eqStringCI (a b : String) : Bool :=
  a.toList.map lowerChar == b.toList.map lowerChar

/-- Case-insensitive membership in a header list, the membership test
of `requests.structures.CaseInsensitiveDict`. -/
def hasHeaderCI (hs : Headers) (name : String) : Bool :=
  hs.any (fun kv => eqStringCI kv.1 name)

/-- Translation of `StatefulBrowser._merge_referer`, acting on the
`headers` keyword argument (an absent argument is the empty list):
when the state URL is known and the caller has not set a Referer
header under any capitalization, append the state URL as the Referer
header; otherwise return the headers unchanged. -/
def mergeReferer (url : Option String) (hs : Headers) : Headers :=
  match url with
  | none => hs
  | some u => if hasHeaderCI hs "Referer" then hs else hs ++ [("Referer", u)]

/-- Translation of `StatefulBrowser.links`: all anchors of the page
carrying an href, in document order, filtered by the regular
expression on the href when `url_regex` is given (`re.search`, the
engine being the collaborator `reSearch`), then by exact equality of
the node text when `link_text` is given. -/
def links (reSearch : String → String → Bool) (page : Node)
    (url_regex : Option String) (link_text : Option String) : List Node :=
  let all1 := findAllHref page
  let all2 :=
    match url_regex with
    | some r => all1.filter (fun a => reSearch r ((getAttr a "href").getD ""))
    | none => all1
  match link_text with
  | some t => all2.filter (fun a => textContent a == t)
  | none => all2

/-- Keyword arguments of `links` forwarded by the link-resolving
helpers. -/
structure LinkKwargs where
  url_regex : Option String
  link_text : Option String
deriving Repr, DecidableEq, Inhabited

/-- Translation of `StatefulBrowser.find_link`: first element of
`links`, or `LinkNotFoundError` when there is none; using the page of
a state that has none is the `AttributeError` of `None`. -/
def find_link (reSearch : String → String → Bool) (page : Option Node)
    (kw : LinkKwargs) : Except BrowserError Node :=
  match page with
  | none => .error .attrNoPage
  | some p =>
    match links reSearch p kw.url_regex kw.link_text with
    | [] => .error .linkNotFound
    | a :: _ => .ok a

/-- The `link` argument of the link-resolving calls: Python `None`, a
bs4 element handle, or a pattern string. -/
inductive LinkArg where
  | noLink
  | elem (t : Node)
  | pattern (s : String)
deriving Repr, DecidableEq, Inhabited

/-- Python truthiness of the `link` argument (`if link`): `None` is
falsy, an element handle follows `tagTruthy`, a string is truthy when
non-empty. -/
def linkArgTruthy : LinkArg → Bool
  | .noLink => false
  | .elem t => tagTruthy t
  | .pattern s => s ≠ ""

/-- Translation of `StatefulBrowser._find_link_internal`: a handle
with an href is returned as is; otherwise a truthy `link` together
with a `url_regex` keyword raises the conflicting-argument
`ValueError`; a truthy string becomes the `url_regex`; a truthy
element handle without href stored as `url_regex` makes `re.search`
raise `TypeError` on the first href-bearing anchor (and
`LinkNotFoundError` when the page has none); a falsy `link` is
ignored and the keywords are used as given. The debug-mode listing on
lookup failure is a side effect preceding the re-raise and is not
modelled. -/
def _find_link_internal (reSearch : String → String → Bool)
    (page : Option Node) (link : LinkArg) (kw : LinkKwargs) :
    Except BrowserError Node :=
  match link with
  | .elem t =>
    if hasAttr t "href" then .ok t
    else if tagTruthy t && kw.url_regex.isSome then .error .valueConflict
    else if tagTruthy t then
      match page with
      | none => .error .attrNoPage
      | some p =>
        if (findAllHref p).isEmpty then .error .linkNotFound
        else .error .typeError
    else find_link reSearch page kw
  | .pattern s =>
    if s ≠ "" && kw.url_regex.isSome then .error .valueConflict
    else if s ≠ "" then
      find_link reSearch page { kw with url_regex := some s }
    else find_link reSearch page kw
  | .noLink => find_link reSearch page kw

/-- Translation of `StatefulBrowser.absolute_url`: join the current
state URL with a possibly relative URL; `urllib.parse.urljoin` is the
collaborator `urljoin`. -/
def absolute_url (urljoin : Option String → String → String)
    (st : BrowserState) (url : String) : String :=
  urljoin st.url url

/-- Translation of `StatefulBrowser.open_relative`: `openUrl` on the
absolute URL. -/
def open_relative (http : Http) (urljoin : Option String → String → String)
    (st : BrowserState) (url : String) (hs : Headers) :
    Response × BrowserState :=
  openUrl http st (absolute_url urljoin st url) hs

/-- Translation of `StatefulBrowser.follow_link`: resolve the link
with `_find_link_internal`, merge the Referer header into the request
keywords, and navigate with `open_relative` on the link's href — a
full navigation that replaces the state. -/
def follow_link (http : Http) (reSearch : String → String → Bool)
    (urljoin : Option String → String → String) (st : BrowserState)
    (link : LinkArg) (requests_headers : Headers) (kw : LinkKwargs) :
    Except BrowserError Response × BrowserState :=
  match _find_link_internal reSearch st.page link kw with
  | .error e => (.error e, st)
  | .ok l =>
    let rh := mergeReferer st.url requests_headers
    let r := open_relative http urljoin st ((getAttr l "href").getD "") rh
    (.ok r.1, r.2)

/-- Translation of `StatefulBrowser.download_link`: resolve the link,
make the href absolute, merge the Referer header, GET directly on the
session (bypassing `openUrl`, so the state is not replaced), raise
`LinkNotFoundError` on a 404 when `raise_on_404` is set. Writing the
body to the optional file is I/O outside the state machine and is not
modelled; no branch assigns the state. -/
def download_link (http : Http) (reSearch : String → String → Bool)
    (urljoin : Option String → String → String) (raise_on_404 : Bool)
    (st : BrowserState) (link : LinkArg) (requests_headers : Headers)
    (kw : LinkKwargs) : Except BrowserError Response × BrowserState :=
  match _find_link_internal reSearch st.page link kw with
  | .error e => (.error e, st)
  | .ok l =>
    let url := absolute_url urljoin st ((getAttr l "href").getD "")
    let rh := mergeReferer st.url requests_headers
    let resp := http.get url rh
    if raise_on_404 && resp.status == 404 then (.error .linkNotFound, st)
    else (.ok resp, st)

/-- Modelled from the spec: the submit-capable controls recognized by
`Form.choose_submit` (form.py is not under src/): an `input` of type
`submit` or `image`, or a `button` with no type or type `submit`. -/
def isSubmitEl (n : Node) : Bool :=
  (n.name? == some "input" &&
    (getAttr n "type" == some "submit" || getAttr n "type" == some "image")) ||
  (n.name? == some "button" &&
    (getAttr n "type" == none || getAttr n "type" == some "submit"))

/-- The `btnName` argument of `submit_selected`: `auto` is Python
`None` (first valid submit element), `noBtn` is `False` (no submit
element), `named` selects a control by name. -/
inductive BtnArg where
  | auto
  | noBtn
  | named (s : String)
deriving Repr, DecidableEq, Inhabited

/-- Modelled from the spec: `Form.choose_submit` (form.py is not under
src/). Chooses the submit control of the form: the explicitly named
one (failing with the lookup error when absent), the first valid one
in document order for `auto`, none for `noBtn`. The spec describes
only the choice, so the model is pure. -/
def choose_submit (f : Form) (b : BtnArg) : Except BrowserError (Option Node) :=
  match b with
  | .noBtn => .ok none
  | .auto => .ok ((Node.descendants f.tag).find? isSubmitEl)
  | .named s =>
    match (Node.descendants f.tag).find?
        (fun n => isSubmitEl n && getAttr n "name" == some s) with
    | some n => .ok (some n)
    | none => .error .linkNotFound

/-- Translation of `StatefulBrowser.submit_selected`: access the
selected form (the `form` property raises `AttributeError` when none
is selected), choose the submit control, merge the Referer header,
submit through the transport, and replace the whole state from the
response only when `update_state` is true. -/
def submit_selected (http : Http) (st : BrowserState) (btnName : BtnArg)
    (update_state : Bool) (hs : Headers) :
    Except BrowserError Response × BrowserState :=
  match st.form with
  | none => (.error .attrNoForm, st)
  | some f =>
    match choose_submit f btnName with
    | .error e => (.error e, st)
    | .ok chosen =>
      let hs2 := mergeReferer st.url hs
      let resp := http.submit f chosen st.url hs2
      if update_state then (.ok resp, stateOfResponse resp)
      else (.ok resp, st)

/-! Concrete fixtures: small pages, states and transport oracles used
by the example conjuncts, witnesses and counterexamples. -/

/-- Anchor element with an href and a text child. -/
def aTag (href txt : String) : Node :=
  .tag "a" [("href", href)] [.text txt]

/-- Page with three anchors `/a1`, `/b1`, `/a2`, in that document
order. -/
def pageAnchors : Node :=
  .tag "html" [] [.tag "body" [] [aTag "/a1" "a1", aTag "/b1" "b1", aTag "/a2" "a2"]]

/-- Detached input declaring the form owner `f`. -/
def inputF : Node :=
  .tag "input" [("form", "f"), ("name", "x")] []

/-- Non-empty form with id `f`. -/
def formF : Node :=
  .tag "form" [("id", "f")] [.tag "input" [("name", "y"), ("type", "submit")] []]

/-- Page holding `formF` and, elsewhere, the detached `inputF`. -/
def pageOwner : Node :=
  .tag "html" [] [.tag "body" [] [formF, .tag "div" [] [inputF]]]

/-- Empty form with id `f` (no children, hence falsy for bs4). -/
def emptyFormF : Node :=
  .tag "form" [("id", "f")] []

/-- Page holding the empty `emptyFormF` and the detached `inputF`. -/
def pageOwnerEmpty : Node :=
  .tag "html" [] [.tag "body" [] [emptyFormF, .tag "div" [] [inputF]]]

/-- State whose page is `pageOwner`. -/
def stOwner : BrowserState :=
  { page := some pageOwner, url := some "http://x/p", form := none, request := none }

/-- State whose page is `pageOwnerEmpty`. -/
def stOwnerEmpty : BrowserState :=
  { page := some pageOwnerEmpty, url := some "http://x/p", form := none, request := none }

/-- State whose page is `pageAnchors`. -/
def stAnchors : BrowserState :=
  { page := some pageAnchors, url := some "http://x/p", form := none, request := none }

/-- State with a selected form and a stored request. -/
def stFormSel : BrowserState :=
  { page := some pageOwner, url := some "http://x/p", form := some ⟨formF⟩,
    request := some ⟨5⟩ }

/-- Fixed response page of the example transport, distinct from every
fixture page. -/
def pageGot : Node :=
  .tag "html" [] [.text "got"]

/-- Example transport: a GET redirects to the requested URL with
`/final` appended, `send` echoes a successor request id, `submit`
returns a fixed fresh page. -/
def httpW : Http :=
  { get := fun u _ => { soup := pageGot, url := u ++ "/final", request := ⟨1⟩, status := 200 },
    send := fun r => { soup := pageGot, url := "http://x/sent", request := ⟨r.rid + 1⟩, status := 200 },
    submit := fun _ _ _ _ => { soup := pageGot, url := "http://x/submitted", request := ⟨9⟩, status := 200 } }

/-- Transport whose every GET is a 404. -/
def http404 : Http :=
  { get := fun u _ => { soup := pageGot, url := u, request := ⟨1⟩, status := 404 },
    send := httpW.send,
    submit := httpW.submit }

/-- Example parser oracle: ignores its input and returns `pageOwner`
(the parsing engine is an out-of-scope collaborator; only the shape of
the produced state matters). -/
def parseW : String → Node :=
  fun _ => pageOwner

/-- Example URL-join oracle treating every link href as already
absolute. -/
def joinW : Option String → String → String :=
  fun _ u => u

/-- The owner-association step of `select_form` as a standalone
function of the page and the resolved form, for stating which form the
selection returns. -/
def extendIfOwner (page form : Node) : Node :=
  if tagTruthy form && hasAttr form "id" then
    appendChildren form (find_associated_elements page ((getAttr form "id").getD ""))
  else form

/-! Helper lemmas. -/

/-- Composition of two boolean filters. -/
theorem filter_filter_bool {α : Type} (p q : α → Bool) (l : List α) :
    (l.filter p).filter q = l.filter (fun a => p a && q a) := by
  induction l with
  | nil => rfl
  | cons a l ih => by_cases hp : p a <;> by_cases hq : q a <;> simp [hp, hq, ih]

/-- Taking `nr+1` elements of a list whose `nr`-th element exists
yields a list of length `nr+1` whose last element is that element. -/
theorem length_take_getLast {α : Type} (l : List α) (nr : Nat) (q d : α)
    (h : l[nr]? = some q) :
    (l.take (nr + 1)).length = nr + 1 ∧ ((l.take (nr + 1)).getLast?).getD d = q := by
  have hlt : nr < l.length := by
    by_contra hge
    rw [List.getElem?_eq_none (by omega)] at h
    exact Option.noConfusion h
  have hlen : (l.take (nr + 1)).length = nr + 1 := by
    simp [List.length_take]
    omega
  refine ⟨hlen, ?_⟩
  rw [List.getLast?_eq_getElem?, hlen]
  have : (l.take (nr + 1))[nr]? = l[nr]? := List.getElem?_take_of_lt (by omega)
  simp [this, h]

/-- A list element read at a valid index is a member. -/
theorem mem_of_getElem_opt {α : Type} : ∀ (l : List α) (i : Nat) (a : α),
    l[i]? = some a → a ∈ l
  | [], i, a, h => by simp at h
  | b :: l, 0, a, h => by
    have : b = a := by simpa using h
    simp [this]
  | b :: l, i + 1, a, h => by
    simp only [List.getElem?_cons_succ] at h
    exact List.mem_cons_of_mem b (mem_of_getElem_opt l i a h)

/-- Every `open` in a sequence determines the final state: the state
after a sequence ending in `url` is the snapshot of that response. -/
theorem openSeq_last (http : Http) :
    ∀ (us : List String) (st : BrowserState) (url : String),
      openSeq http st (us ++ [url]) = stateOfResponse (http.get url [])
  | [], _, _ => rfl
  | u :: us, st, url => openSeq_last http us (openUrl http st u []).2 url

/-- An element of the page of an owner-capable kind whose `form`
attribute is `fid` is collected by `find_associated_elements`. -/
theorem mem_find_associated_elements (page e : Node) (k fid : String)
    (hmem : e ∈ Node.descendants page) (hk : e.name? = some k)
    (hkin : k ∈ elements_with_owner_form) (hf : getAttr e "form" = some fid) :
    e ∈ find_associated_elements page fid := by
  unfold find_associated_elements
  rw [List.mem_flatMap]
  exact ⟨k, hkin, by simp [findAllNameFormAttr, List.mem_filter, hmem, hk, hf]⟩

mutual

/-- A path listed by `pnodes` addresses exactly the node it is paired
with. -/
theorem getNode_of_mem_pnodes : ∀ (n : Node) (p : Path) (m : Node),
    (p, m) ∈ pnodes n → getNode n p = some m
  | .text _, _, _, h => by simp [pnodes] at h
  | .tag nm a cs, p, m, h => by
    rcases getNode_of_mem_pnodesL cs 0 p m (by simpa [pnodes] using h) with
      ⟨j, rest, c, hp, hc, hg⟩
    subst hp
    simp [getNode, Node.children, hc, hg]

/-- Sibling-list version of `getNode_of_mem_pnodes` with an index
offset. -/
theorem getNode_of_mem_pnodesL : ∀ (cs : List Node) (i : Nat) (p : Path) (m : Node),
    (p, m) ∈ pnodesL i cs →
    ∃ j rest c, p = (i + j) :: rest ∧ cs[j]? = some c ∧ getNode c rest = some m
  | [], _, _, _, h => by simp [pnodesL] at h
  | c :: cs, i, p, m, h => by
    simp only [pnodesL, List.mem_cons, List.mem_append, List.mem_map] at h
    rcases h with h | ⟨⟨p', m'⟩, hmem, heq⟩ | h
    · refine ⟨0, [], c, ?_, by simp, ?_⟩
      · simpa using congrArg Prod.fst h
      · have hm : m = c := by simpa using congrArg Prod.snd h
        simp [getNode, hm]
    · have hg := getNode_of_mem_pnodes c p' m' hmem
      have hp1 : i :: p' = p := by simpa using congrArg Prod.fst heq
      have hp2 : m' = m := by simpa using congrArg Prod.snd heq
      refine ⟨0, p', c, ?_, by simp, by rw [hp2] at hg; exact hg⟩
      rw [← hp1]
      simp
    · rcases getNode_of_mem_pnodesL cs (i + 1) p m h with ⟨j, rest, c', hp, hc, hg⟩
      refine ⟨j + 1, rest, c', ?_, by simpa using hc, hg⟩
      rw [hp]
      congr 1
      omega

end

/-- Replacing inside child `i` of a sibling list puts the replaced
child at index `i`. -/
theorem setNodeL_getElem : ∀ (cs : List Node) (i : Nat) (p : Path) (m c0 : Node),
    cs[i]? = some c0 → (setNodeL cs i p m)[i]? = some (setNode c0 p m)
  | [], _, _, _, _, h => by simp at h
  | c :: _, 0, p, m, c0, h => by
    have hc : c = c0 := by simpa using h
    subst hc
    simp [setNodeL]
  | _ :: cs, i + 1, p, m, c0, h => by
    simpa [setNodeL] using setNodeL_getElem cs i p m c0 (by simpa using h)

/-- Reading back a valid path after `setNode` yields the new node. -/
theorem getNode_setNode : ∀ (n : Node) (p : Path) (m c : Node),
    getNode n p = some c → getNode (setNode n p m) p = some m
  | _, [], _, _, _ => by simp [setNode, getNode]
  | .text _, _ :: _, m, c, h => by simp [getNode, Node.children] at h
  | .tag nm a cs, i :: p', m, c, h => by
    simp only [getNode, Node.children] at h
    cases hc : cs[i]? with
    | none => rw [hc] at h; exact Option.noConfusion h
    | some c0 =>
      rw [hc] at h
      have hrec := getNode_setNode c0 p' m c h
      have hL := setNodeL_getElem cs i p' m c0 hc
      simp [setNode, getNode, Node.children, hL, hrec]

/-- Success characterization of `select_form_css`: when the page is
present and holds an `nr`-th selector match `q`, the call returns the
match extended by `extendIfOwner`, stores it as the selected form, and
rebuilds the page at the match's path exactly when the owner
association fires. -/
theorem select_form_css_ok (selMatch : String → Node → Bool)
    (st : BrowserState) (sel : String) (nr : Nat) (p : Node) (q : Path × Node)
    (h1 : st.page = some p) (h2 : (selectMatches selMatch p sel)[nr]? = some q) :
    select_form_css selMatch st sel nr =
      (.ok ⟨extendIfOwner p q.2⟩,
       if tagTruthy q.2 && hasAttr q.2 "id" then
         { st with page := some (setNode p q.1 (extendIfOwner p q.2)),
                   form := some ⟨extendIfOwner p q.2⟩ }
       else { st with form := some ⟨extendIfOwner p q.2⟩ }) := by
  rcases length_take_getLast _ nr q ([], default) h2 with ⟨hlen, hlast⟩
  unfold select_form_css selectLimit
  rw [h1]
  simp only [hlen, hlast, if_neg (by omega : ¬ (nr + 1 ≠ nr + 1))]
  by_cases hcond : tagTruthy q.2 && hasAttr q.2 "id"
  · simp [hcond, extendIfOwner]
  · simp [hcond, extendIfOwner]

/-! Claim theorems. -/

/-- C1: after every `open` call — also after each open of an arbitrary
sequence — the state is wholesale-replaced by the response snapshot:
the page is the parsed response body, the url is the response's final
URL after redirects (not the requested URL, as the concrete
redirecting transport shows), the request is the sent request, and the
previously selected form is reset to none. -/
theorem C1_open_replaces_state_with_response :
    (∀ http st url hs, (openUrl http st url hs).2 =
        { page := some (http.get url hs).soup, url := some (http.get url hs).url,
          form := none, request := some (http.get url hs).request }) ∧
    (∀ http st us url, openSeq http st (us ++ [url]) =
        { page := some (http.get url []).soup, url := some (http.get url []).url,
          form := none, request := some (http.get url []).request }) ∧
    (openUrl httpW stFormSel "http://x/req" []).2.url = some "http://x/req/final" ∧
    (openUrl httpW stFormSel "http://x/req" []).2.url ≠ some "http://x/req" ∧
    (openUrl httpW stFormSel "http://x/req" []).2.form = none := by
  refine ⟨fun http st url hs => rfl,
    fun http st us url => openSeq_last http us st url, rfl, by decide, rfl⟩

/-- C2: `submit_selected` with `update_state=False` returns the state
unchanged on every path; in particular the concrete successful
submission returns a fresh response whose page differs from the prior
page while the whole state is preserved (the pure choice of the submit
control is modelled from the spec, `form.py` being outside the given
sources). -/
theorem C2_submit_no_update_leaves_state :
    (∀ http st btn hs, (submit_selected http st btn false hs).2 = st) ∧
    (submit_selected httpW stFormSel .auto false []).1 =
      .ok { soup := pageGot, url := "http://x/submitted", request := ⟨9⟩, status := 200 } ∧
    (submit_selected httpW stFormSel .auto false []).2 = stFormSel ∧
    some pageGot ≠ stFormSel.page := by
  refine ⟨fun http st btn hs => ?_, rfl, by decide, by decide⟩
  unfold submit_selected
  rcases h : st.form with _ | f
  · simp
  · rcases hc : choose_submit f btn with e | chosen <;> simp [hc]

/-- C3: `refresh` fails with the unrefreshable `ValueError` and leaves
the state unchanged exactly when the state holds no prior request — in
particular directly after `open_fake_page` and on a never-navigated
client — while with a stored request (in particular right after a
successful `open`) it re-sends that request and replaces the state
from the new response. -/
theorem C3_refresh_unrefreshable_iff_no_request :
    (∀ http st, refresh http st = (.error .valueUnrefreshable, st) ↔ st.request = none) ∧
    (∀ http parse text u, refresh http (open_fake_page parse text u) =
        (.error .valueUnrefreshable, open_fake_page parse text u)) ∧
    (∀ http, refresh http initialState = (.error .valueUnrefreshable, initialState)) ∧
    (∀ http st req, st.request = some req →
        refresh http st = (.ok (http.send req), stateOfResponse (http.send req))) ∧
    (∀ http st url hs, refresh http (openUrl http st url hs).2 =
        (.ok (http.send (http.get url hs).request),
          stateOfResponse (http.send (http.get url hs).request))) := by
  refine ⟨fun http st => ?_, fun http parse text u => rfl, fun http => rfl,
    fun http st req h => ?_, fun http st url hs => rfl⟩
  · rcases h : st.request with _ | req <;> simp [refresh, h]
  · simp [refresh, h]

/-- C3 witness: a state with stored request 5 refreshes successfully
into the snapshot of the re-sent request's response. -/
theorem C3_refresh_witness :
    refresh httpW stFormSel = (.ok (httpW.send ⟨5⟩), stateOfResponse (httpW.send ⟨5⟩)) :=
  C3_refresh_unrefreshable_iff_no_request.2.2.2.1 httpW stFormSel ⟨5⟩ rfl

/-- C8: `download_link` returns the state unchanged on every path; the
concrete runs show a success, the configured 404 failure, and an
unresolved-link failure, all with the state intact. -/
theorem C8_download_link_never_modifies_state :
    (∀ http reSearch urljoin r404 st link rh kw,
        (download_link http reSearch urljoin r404 st link rh kw).2 = st) ∧
    (download_link httpW literalSearch joinW false stAnchors (.pattern "/b") []
        ⟨none, none⟩).1 = .ok (httpW.get "/b1" [("Referer", "http://x/p")]) ∧
    (download_link http404 literalSearch joinW true stAnchors (.pattern "/b") []
        ⟨none, none⟩).1 = .error .linkNotFound ∧
    (download_link httpW literalSearch joinW false stAnchors (.pattern "/zz") []
        ⟨none, none⟩).1 = .error .linkNotFound := by
  refine ⟨fun http reSearch urljoin r404 st link rh kw => ?_, rfl, rfl, rfl⟩
  unfold download_link
  rcases hf : _find_link_internal reSearch st.page link kw with e | l
  · simp
  · by_cases hb : r404 && (http.get (absolute_url urljoin st ((getAttr l "href").getD ""))
        (mergeReferer st.url rh)).status == 404 <;> simp [hb]

/-- C6: `links` returns exactly the href-bearing anchors of the page,
in document order, keeping an anchor iff its href matches the url
regular expression (when given) and its text equals the link text
(when given); on the three-anchor page the caret-slash-a pattern keeps
exactly the first and third anchors, in order. -/
theorem C6_links_exact_filter :
    (∀ (reSearch : String → String → Bool) (page : Node)
        (ur lt : Option String), links reSearch page ur lt =
        (Node.descendants page).filter (fun n =>
          ((n.name? == some "a" && hasAttr n "href") &&
            (match ur with
             | some r => reSearch r ((getAttr n "href").getD "")
             | none => true)) &&
          (match lt with
           | some t => textContent n == t
           | none => true))) ∧
    links literalSearch pageAnchors (some "^/a") none =
      [aTag "/a1" "a1", aTag "/a2" "a2"] := by
  constructor
  · intro reSearch page ur lt
    cases ur <;> cases lt <;>
      simp [links, findAllHref, filter_filter_bool, Bool.and_true,
        Bool.and_comm, Bool.and_left_comm, Bool.and_assoc]
  · rfl

/-- Formalization of the literal claim C7 at a given state URL and
caller header list: the merged outgoing headers contain a Referer
entry (any capitalization) whose value equals the state URL if and
only if the URL is non-null and the caller supplied no Referer header. -/
def refererContainsIff (url : Option String) (hs : Headers) : Prop :=
  ((mergeReferer url hs).any
      (fun kv => eqStringCI kv.1 "Referer" && some kv.2 == url)) = true ↔
    (url.isSome = true ∧ hasHeaderCI hs "Referer" = false)

/-- C7 counterexample: a caller-supplied Referer whose value happens
to equal the current state URL falsifies the claimed equivalence — the
outgoing headers do contain a Referer equal to the state's URL even
though the caller supplied it (right-to-left direction fails). -/
theorem C7_cex_referer_iff :
    ¬ refererContainsIff (some "http://x/p") [("Referer", "http://x/p")] := by
  unfold refererContainsIff
  decide

/-- C7 (amended): a Referer header equal to the current state URL is
appended exactly when the URL is known and the caller supplied none
under any capitalization; a caller-supplied Referer is never
overwritten; no Referer is added without a URL; and submit, follow and
download all hand the transport exactly the merged headers. -/
theorem C7_referer_injection :
    (∀ u hs, hasHeaderCI hs "Referer" = false →
        mergeReferer (some u) hs = hs ++ [("Referer", u)]) ∧
    (∀ url hs, hasHeaderCI hs "Referer" = true → mergeReferer url hs = hs) ∧
    (∀ hs, mergeReferer none hs = hs) ∧
    (∀ http st btn hs f c, st.form = some f → choose_submit f btn = .ok c →
        (submit_selected http st btn true hs).1 =
          .ok (http.submit f c st.url (mergeReferer st.url hs))) ∧
    (∀ http reSearch urljoin st link rh kw l,
        _find_link_internal reSearch st.page link kw = .ok l →
        (follow_link http reSearch urljoin st link rh kw).1 =
          .ok (http.get (urljoin st.url ((getAttr l "href").getD ""))
                (mergeReferer st.url rh))) ∧
    (∀ http reSearch urljoin st link rh kw l,
        _find_link_internal reSearch st.page link kw = .ok l →
        (download_link http reSearch urljoin false st link rh kw).1 =
          .ok (http.get (urljoin st.url ((getAttr l "href").getD ""))
                (mergeReferer st.url rh))) := by
  refine ⟨fun u hs h => by simp [mergeReferer, h],
    fun url hs h => ?_,
    fun hs => rfl,
    fun http st btn hs f c hf hc => by simp [submit_selected, hf, hc],
    fun http reSearch urljoin st link rh kw l hl => by
      simp [follow_link, hl, open_relative, openUrl, absolute_url],
    fun http reSearch urljoin st link rh kw l hl => by
      simp [download_link, hl, absolute_url]⟩
  rcases url with _ | u
  · rfl
  · simp [mergeReferer, h]

/-- C7 witness: with no caller headers the Referer is injected from
the state URL, and a concrete submit sends exactly the merged headers. -/
theorem C7_referer_injection_witness :
    mergeReferer (some "http://x/p") [] = [("Referer", "http://x/p")] ∧
    (submit_selected httpW stFormSel .auto true []).1 =
      .ok (httpW.submit ⟨formF⟩
            (some (.tag "input" [("name", "y"), ("type", "submit")] []))
            (some "http://x/p") (mergeReferer (some "http://x/p") [])) :=
  ⟨C7_referer_injection.1 "http://x/p" [] rfl,
   C7_referer_injection.2.2.2.1 httpW stFormSel .auto []
     ⟨formF⟩ (some (.tag "input" [("name", "y"), ("type", "submit")] [])) rfl rfl⟩

/-- C9 counterexample: the empty string is a raw link pattern argument
that is not a link handle with an href, yet together with an explicit
url_regex keyword `follow_link` does not fail with the
conflicting-argument error — it resolves the link from the keyword and
navigates, replacing the state. -/
theorem C9_cex_empty_pattern_no_conflict :
    (follow_link httpW literalSearch joinW stAnchors (.pattern "") []
        ⟨some "/b", none⟩).1 ≠ .error .valueConflict ∧
    (follow_link httpW literalSearch joinW stAnchors (.pattern "") []
        ⟨some "/b", none⟩).2 ≠ stAnchors := by
  decide

/-- C9 (amended): when the raw link argument is truthy (a non-empty
pattern string, or a non-empty element handle without an href — Python
truthiness) and an explicit url_regex keyword is also given, both
`follow_link` and `download_link` fail with the conflicting-argument
`ValueError` and the state is unchanged, before any lookup or
navigation. -/
theorem C9_truthy_conflicting_arguments :
    ∀ http reSearch urljoin r404 st rh kw link,
      linkArgTruthy link = true →
      (∀ t, link = .elem t → hasAttr t "href" = false) →
      kw.url_regex.isSome = true →
      follow_link http reSearch urljoin st link rh kw = (.error .valueConflict, st) ∧
      download_link http reSearch urljoin r404 st link rh kw =
        (.error .valueConflict, st) := by
  intro http reSearch urljoin r404 st rh kw link htr hno hur
  have hfl : _find_link_internal reSearch st.page link kw = .error .valueConflict := by
    rcases link with _ | t | s
    · simp [linkArgTruthy] at htr
    · have hh := hno t rfl
      simp only [linkArgTruthy] at htr
      simp [_find_link_internal, hh, htr, hur]
    · simp only [linkArgTruthy] at htr
      simp [_find_link_internal, htr, hur]
  constructor
  · simp [follow_link, hfl]
  · simp [download_link, hfl]

/-- C9 witness: a non-empty pattern together with a url_regex keyword
makes both calls fail with the conflict error, state unchanged. -/
theorem C9_truthy_conflicting_arguments_witness :
    follow_link httpW literalSearch joinW stAnchors (.pattern "/b") []
        ⟨some "/zz", none⟩ = (.error .valueConflict, stAnchors) ∧
    download_link httpW literalSearch joinW false stAnchors (.pattern "/b") []
        ⟨some "/zz", none⟩ = (.error .valueConflict, stAnchors) :=
  C9_truthy_conflicting_arguments httpW literalSearch joinW false stAnchors []
    ⟨some "/zz", none⟩ (.pattern "/b") (by decide) (fun t h => by cases h) rfl

/-- C4: `select_form` fails with the link/form-not-found error exactly
when given a non-form element handle, or given a selector string while
the page holds fewer than nr+1 matches in document order; on the
one-form page `select_form("form", nr=1)` fails, and with enough
matches it returns the nr-th match (extended with its owned elements). -/
theorem C4_select_form_not_found_condition :
    (∀ st t, (select_form_elem st t).1 = .error .linkNotFound ↔
        t.name? ≠ some "form") ∧
    (∀ selMatch st sel nr,
        (select_form_css selMatch st sel nr).1 = .error .linkNotFound ↔
        ∃ p, st.page = some p ∧ (selectMatches selMatch p sel).length < nr + 1) ∧
    (select_form_css tagNameSel stOwner "form" 1).1 = .error .linkNotFound ∧
    (∀ selMatch st sel nr p q, st.page = some p →
        (selectMatches selMatch p sel)[nr]? = some q →
        (select_form_css selMatch st sel nr).1 = .ok ⟨extendIfOwner p q.2⟩) := by
  refine ⟨fun st t => ?_, fun selMatch st sel nr => ?_, rfl,
    fun selMatch st sel nr p q h1 h2 => by
      rw [select_form_css_ok selMatch st sel nr p q h1 h2]⟩
  · unfold select_form_elem
    by_cases hn : t.name? = some "form"
    · simp only [hn, ne_eq, not_true_eq_false, iff_false]
      rw [if_neg (by simp [hn])]
      split
      · split <;> simp
      · simp
    · rw [if_pos hn]
      simp [hn]
  · rcases hp : st.page with _ | p
    · simp [select_form_css, hp]
    · simp only [select_form_css, hp]
      have hlen : (selectLimit selMatch p sel (nr + 1)).length =
          min (nr + 1) (selectMatches selMatch p sel).length := by
        simp [selectLimit, List.length_take]
      by_cases hlt : (selectMatches selMatch p sel).length < nr + 1
      · rw [if_pos (show (selectLimit selMatch p sel (nr + 1)).length ≠ nr + 1 by
          rw [hlen]; omega)]
        exact iff_of_true rfl ⟨p, rfl, hlt⟩
      · rw [if_neg (show ¬ (selectLimit selMatch p sel (nr + 1)).length ≠ nr + 1 by
          rw [hlen]; omega)]
        constructor
        · intro h
          exfalso
          revert h
          split <;> simp
        · rintro ⟨p', hp', hl⟩
          exact absurd (Option.some.inj hp' ▸ hl) (by omega)

/-- C4 witness: on the owner page the first form is selected and
returned extended with its owned elements. -/
theorem C4_select_form_not_found_condition_witness :
    (select_form_css tagNameSel stOwner "form" 0).1 =
      .ok ⟨extendIfOwner pageOwner formF⟩ :=
  C4_select_form_not_found_condition.2.2.2 tagNameSel stOwner "form" 0
    pageOwner ([0, 0], formF) rfl (by decide)

/-- C5 counterexample: the empty form (falsy for bs4's element
objects) with id f is selected as-is — the detached input with form=f
present in the page is not added to its controls, although the claim
requires it for every selected form carrying an id. -/
theorem C5_cex_empty_form_owner_skipped :
    (select_form_css tagNameSel stOwnerEmpty "form" 0).1 = .ok ⟨emptyFormF⟩ ∧
    hasAttr emptyFormF "id" = true ∧ getAttr emptyFormF "id" = some "f" ∧
    inputF ∈ Node.descendants pageOwnerEmpty ∧
    inputF.name? = some "input" ∧ getAttr inputF "form" = some "f" ∧
    inputF ∉ Node.descendants emptyFormF ∧
    inputF ∉ Node.children emptyFormF := by
  refine ⟨rfl, rfl, rfl, by decide, rfl, rfl, by decide, by decide⟩

/-- C5 (amended): for every form resolved by `select_form` that is
non-empty (truthy for bs4) and carries an id, every element of an
owner-capable kind anywhere in the page whose form attribute equals
that id ends up among the selected form's children, which also keep
all of the form's own children. -/
theorem C5_owner_association_for_nonempty_form :
    ∀ selMatch st sel nr p q, st.page = some p →
      (selectMatches selMatch p sel)[nr]? = some q →
      tagTruthy q.2 = true → hasAttr q.2 "id" = true →
      ∀ e k fid, getAttr q.2 "id" = some fid →
        e ∈ Node.descendants p → e.name? = some k →
        k ∈ elements_with_owner_form → getAttr e "form" = some fid →
        ∃ f : Form, (select_form_css selMatch st sel nr).1 = .ok f ∧
          e ∈ Node.children f.tag ∧ Node.children q.2 ⊆ Node.children f.tag := by
  intro selMatch st sel nr p q h1 h2 htr hid e k fid hfid hmem hk hkin hf
  have hcond : (tagTruthy q.2 && hasAttr q.2 "id") = true := by
    simp [htr, hid]
  have hext : extendIfOwner p q.2 =
      appendChildren q.2 (find_associated_elements p fid) := by
    simp [extendIfOwner, hcond, hfid]
  refine ⟨⟨extendIfOwner p q.2⟩,
    by rw [select_form_css_ok selMatch st sel nr p q h1 h2], ?_, ?_⟩
  · rw [hext]
    obtain ⟨pth, m⟩ := q
    rcases m with ⟨nm, a, cs⟩ | s
    · have he : e ∈ find_associated_elements p fid :=
        mem_find_associated_elements p e k fid hmem hk hkin hf
      simp only [appendChildren, Node.children, List.mem_append]
      exact Or.inr he
    · exfalso
      simp [hasAttr, getAttr, Node.attrList] at hid
  · rw [hext]
    obtain ⟨pth, m⟩ := q
    rcases m with ⟨nm, a, cs⟩ | s
    · simp only [appendChildren, Node.children]
      exact List.subset_append_left cs (find_associated_elements p fid)
    · exfalso
      simp [hasAttr, getAttr, Node.attrList] at hid

/-- C5 witness: selecting the non-empty form with id f on the owner
page includes the detached input among the selected form's children,
alongside the form's own child. -/
theorem C5_owner_association_for_nonempty_form_witness :
    ∃ f : Form, (select_form_css tagNameSel stOwner "form" 0).1 = .ok f ∧
      inputF ∈ Node.children f.tag ∧ Node.children formF ⊆ Node.children f.tag :=
  C5_owner_association_for_nonempty_form tagNameSel stOwner "form" 0
    pageOwner ([0, 0], formF) rfl (by decide) rfl rfl
    inputF "input" "f" rfl (by decide) rfl (by decide) rfl

/-- C10 counterexample: selecting the empty form carrying id f, while
an associated element with form=f exists elsewhere in the page, leaves
the state's page tree completely unchanged — nothing is appended to
the form node. -/
theorem C10_cex_empty_form_page_not_mutated :
    (select_form_css tagNameSel stOwnerEmpty "form" 0).1 = .ok ⟨emptyFormF⟩ ∧
    hasAttr emptyFormF "id" = true ∧
    find_associated_elements pageOwnerEmpty "f" = [inputF] ∧
    (select_form_css tagNameSel stOwnerEmpty "form" 0).2.page =
      some pageOwnerEmpty ∧
    getNode pageOwnerEmpty [0, 0] = some emptyFormF ∧
    Node.children emptyFormF = [] := by
  exact ⟨rfl, rfl, rfl, rfl, rfl, rfl⟩

/-- C10 (amended): when the selector branch of `select_form` resolves
a non-empty (truthy) form carrying an id, the state's page becomes the
tree rebuilt with the associated elements appended as children of the
form node at its path — the node read back at that path is the
extended form, the stored selected form is the same extended node, and
whenever associated elements exist the page differs from the previous
one, so subsequent reads observe the modified tree. -/
theorem C10_select_form_mutates_page_tree :
    ∀ selMatch st sel nr p q fid, st.page = some p →
      (selectMatches selMatch p sel)[nr]? = some q →
      tagTruthy q.2 = true → hasAttr q.2 "id" = true →
      getAttr q.2 "id" = some fid →
      ((select_form_css selMatch st sel nr).2.page =
          some (setNode p q.1 (appendChildren q.2 (find_associated_elements p fid))) ∧
        getNode (setNode p q.1 (appendChildren q.2 (find_associated_elements p fid))) q.1 =
          some (appendChildren q.2 (find_associated_elements p fid)) ∧
        (select_form_css selMatch st sel nr).2.form =
          some ⟨appendChildren q.2 (find_associated_elements p fid)⟩ ∧
        (find_associated_elements p fid ≠ [] →
          (select_form_css selMatch st sel nr).2.page ≠ some p)) := by
  intro selMatch st sel nr p q fid h1 h2 htr hid hfid
  have hcond : (tagTruthy q.2 && hasAttr q.2 "id") = true := by
    simp [htr, hid]
  have hext : extendIfOwner p q.2 =
      appendChildren q.2 (find_associated_elements p fid) := by
    simp [extendIfOwner, hcond, hfid]
  have hok := select_form_css_ok selMatch st sel nr p q h1 h2
  rw [hcond] at hok
  simp only [if_true] at hok
  have hqmem : (q.1, q.2) ∈ pnodes p := by
    have hq : q ∈ selectMatches selMatch p sel :=
      mem_of_getElem_opt _ nr q h2
    have := (List.mem_filter.mp hq).1
    simpa using this
  have hval : getNode p q.1 = some q.2 := getNode_of_mem_pnodes p q.1 q.2 hqmem
  have hset : getNode (setNode p q.1 (appendChildren q.2 (find_associated_elements p fid)))
      q.1 = some (appendChildren q.2 (find_associated_elements p fid)) :=
    getNode_setNode p q.1 _ q.2 hval
  refine ⟨by rw [hok, hext], hset, by rw [hok, hext], ?_⟩
  intro hne hpage
  rw [hok, hext] at hpage
  have hpeq : setNode p q.1 (appendChildren q.2 (find_associated_elements p fid)) = p :=
    Option.some.inj (by simpa using hpage)
  rw [hpeq, hval] at hset
  have hforms : appendChildren q.2 (find_associated_elements p fid) = q.2 :=
    (Option.some.inj hset).symm
  rcases hm : q.2 with ⟨nm, a, cs⟩ | s
  · rw [hm] at hforms
    simp only [appendChildren, Node.tag.injEq] at hforms
    have : (cs ++ find_associated_elements p fid).length = cs.length := by
      rw [hforms.2.2]
    simp [List.length_append] at this
    exact hne this
  · rw [hm] at hid
    simp [hasAttr, getAttr, Node.attrList] at hid

/-- C10 witness: on the owner page the selection rebuilds the page
with the extended form at the form's path. -/
theorem C10_select_form_mutates_page_tree_witness :
    (select_form_css tagNameSel stOwner "form" 0).2.page =
      some (setNode pageOwner [0, 0]
        (appendChildren formF (find_associated_elements pageOwner "f"))) :=
  (C10_select_form_mutates_page_tree tagNameSel stOwner "form" 0 pageOwner
    ([0, 0], formF) "f" rfl (by decide) rfl rfl rfl).1

end MechanicalSoup
